import Mathlib

/-!
Shallow embedding of the eureka idea-journal CLI core (src/src/lib.rs).

The core is the run-mode state machine of `Eureka::run` together with the
setup, capture, view and clear flows.  External collaborators (config store,
terminal reader/printer, executable locator, process runner, git) are modelled
as an abstract environment `Env` plus an explicit configuration state `St`;
every observable action of a flow is recorded in an event trace so that
theorems can speak about which processes were spawned, which settings were
written, and in which order.
-/

namespace Eureka

/-- The two persisted settings, mirroring `types::ConfigFile` with variants
`Repo` and `Editor`. -/
inductive ConfigFile : Type
  | Repo : ConfigFile
  | Editor : ConfigFile
deriving DecidableEq, Repr

/-- Observable actions of a flow, in program order.  `printInputHeader`,
`printed`, `printFtsBanner` and `printEditorSelectionHeader` mirror the
`Printer` calls; `selectMenu` records the items and default index handed to
`dialoguer::Select`; `spawn` records an attempted `Command::new(bin).arg(arg)`
invocation; `eprinted` mirrors `eprintln!`; `configWrite`, `fileRm` and
`gitCommitAndPush` record the collaborator calls. -/
inductive Event : Type
  | printInputHeader (header : String)
  | printed (text : String)
  | printFtsBanner
  | printEditorSelectionHeader
  | configDirCreate
  | selectMenu (items : List String) (defaultIndex : Nat)
  | spawn (bin : String) (arg : String)
  | eprinted (text : String)
  | configWrite (file : ConfigFile) (value : String)
  | fileRm (file : ConfigFile)
  | gitCommitAndPush (repoPath : String) (message : String)
deriving DecidableEq, Repr

/-- How a flow terminates: normally, by a Rust `panic!` / `unwrap` /
`expect` abort carrying a message, or blocked forever waiting for terminal
input that never arrives (the reader supplies no further line). -/
inductive Outcome (α : Type) : Type
  | ok (a : α)
  | panicked (message : String)
  | blocked
deriving DecidableEq, Repr

/-- Ambient mutable state: the two settings of the config store, whether the
config directory exists, and the stream of lines the terminal reader will
produce.  `config_read` of an absent setting is the `Err` case of the Rust
`Result`, so presence is an `Option`. -/
structure St : Type where
  repo : Option String
  editor : Option String
  configDir : Bool
  inputs : List String
deriving DecidableEq, Repr

/-- Deterministic oracle for everything the host decides in one run: the
executable locator `get_if_available`, the index returned by the selection
menu, the result of waiting on the editor and pager processes (`Except.ok
code` is a process that ran and exited with `code`; `Except.error e` is a
launch failure with message `e`), and the results of config-store writes and
removals, config-directory creation, and `git_commit_and_push`. -/
structure Env : Type where
  which : String → Option String
  selectIndex : Nat
  editorStatus : Except String Int
  pagerStatus : Except String Int
  writeRes : ConfigFile → Except String Unit
  rmRes : ConfigFile → Except String Unit
  dirCreateRes : Except String Unit
  gitRes : Except String Unit

/-- Result of running a flow: its outcome, the state it leaves behind, and
the trace of observable events it produced. -/
structure Res (α : Type) : Type where
  out : Outcome α
  st : St
  events : List Event
deriving DecidableEq, Repr

/-- `FileHandler::config_read`: presence of a setting. -/
def config_read (st : St) (f : ConfigFile) : Option String :=
  match f with
  | .Repo => st.repo
  | .Editor => st.editor

/-- State after a successful write of setting `f`. -/
def st_set (st : St) (f : ConfigFile) (v : String) : St :=
  match f with
  | .Repo => { st with repo := some v }
  | .Editor => { st with editor := some v }

/-- State after a successful removal of setting `f`. -/
def st_del (st : St) (f : ConfigFile) : St :=
  match f with
  | .Repo => { st with repo := none }
  | .Editor => { st with editor := none }

/-- `FileHandler::config_write`: on success records the value and emits a
write event; on failure the error is returned and nothing changes. -/
def config_write (env : Env) (st : St) (f : ConfigFile) (v : String) :
    Except String Unit × St × List Event :=
  match env.writeRes f with
  | .ok _ => (.ok (), st_set st f v, [.configWrite f v])
  | .error e => (.error e, st, [])

/-- `FileHandler::file_rm`: on success deletes the setting and emits a
removal event; on failure the error is returned and nothing changes. -/
def file_rm (env : Env) (st : St) (f : ConfigFile) :
    Except String Unit × St × List Event :=
  match env.rmRes f with
  | .ok _ => (.ok (), st_del st f, [.fileRm f])
  | .error e => (.error e, st, [])

/-- `Eureka::is_first_time_run`: both settings read as errors. -/
def is_first_time_run (st : St) : Bool :=
  (config_read st .Repo).isNone && (config_read st .Editor).isNone

/-- `Eureka::is_config_missing`: at least one setting reads as an error. -/
def is_config_missing (st : St) : Bool :=
  (config_read st .Repo).isNone || (config_read st .Editor).isNone

/-- The prompt printed by each iteration of the repository-path loop. -/
def repo_prompt : Event := .printInputHeader "Absolute path to your idea repo"

/-- The `while input_repo_path.is_empty()` loop of `setup_repo_path`: each
iteration prints the prompt and reads a line; it stops at the first
non-empty line, which it yields together with the unconsumed input. -/
def setup_repo_path_loop : List String → Outcome (String × List String) × List Event
  | [] => (.blocked, [repo_prompt])
  | s :: rest =>
    if s.isEmpty then
      let r := setup_repo_path_loop rest
      (r.1, repo_prompt :: r.2)
    else
      (.ok (s, rest), [repo_prompt])

/-- `Eureka::setup_repo_path`: loop until a non-empty line, then write it
under `Repo`; a write failure is propagated as the `io::Result`. -/
def setup_repo_path (env : Env) (st : St) : Res (Except String Unit) :=
  match setup_repo_path_loop st.inputs with
  | (.ok (value, rest), evs) =>
    let st1 := { st with inputs := rest }
    let w := config_write env st1 .Repo value
    ⟨.ok w.1, w.2.1, evs ++ w.2.2⟩
  | (.panicked m, evs) => ⟨.panicked m, st, evs⟩
  | (.blocked, evs) => ⟨.blocked, st, evs⟩

/-- The fixed candidate list probed by `setup_editor_path`. -/
def default_editors : List String := ["vim", "nano", "micro"]

/-- The sentinel menu entry appended after the found editors. -/
def other_option : String := "Other (provide name, e.g. \x27emacs\x27)"

/-- The `for editor in default_editors` probe loop: the (name, path) pairs of
the candidates the locator resolves, in probe order.  This is both the
`editors_and_path` map and, via `Prod.fst`, the `available_editors` list. -/
def probe_editors (env : Env) : List (String × String) :=
  default_editors.filterMap (fun ed => (env.which ed).map (fun p => (ed, p)))

/-- `Eureka::setup_editor_path`: probe the default editors, show the menu of
found names plus the sentinel with default index 0, then either write the
recorded path of the selected found editor, or (sentinel) read a free-text
name, resolve it, aborting fatally if unresolved, and write the resolved
path. -/
def setup_editor_path (env : Env) (st : St) : Res (Except String Unit) :=
  let editors_and_path := probe_editors env
  let available_editors := editors_and_path.map Prod.fst ++ [other_option]
  let evs : List Event :=
    [.printEditorSelectionHeader, .selectMenu available_editors 0]
  let select_index := env.selectIndex
  let last_index := available_editors.length - 1
  if select_index = last_index then
    match st.inputs with
    | [] => ⟨.blocked, st, evs ++ [.printInputHeader ""]⟩
    | chosen_editor :: rest =>
      let st1 := { st with inputs := rest }
      match env.which chosen_editor with
      | none =>
        ⟨.panicked ("Could not find executable for " ++ chosen_editor ++ " - aborting"),
         st1, evs ++ [.printInputHeader ""]⟩
      | some chosen_editor_path =>
        let w := config_write env st1 .Editor chosen_editor_path
        ⟨.ok w.1, w.2.1, evs ++ [.printInputHeader ""] ++ w.2.2⟩
  else
    match available_editors.get? select_index with
    | none => ⟨.panicked "index out of bounds", st, evs⟩
    | some chosen_editor =>
      match editors_and_path.lookup chosen_editor with
      | none => ⟨.panicked "called Option::unwrap() on a None value", st, evs⟩
      | some chosen_editor_path =>
        let w := config_write env st .Editor chosen_editor_path
        ⟨.ok w.1, w.2.1, evs ++ w.2.2⟩

/-- `Eureka::open_editor`: spawn the editor binary on the notes file and wait;
any exit status is success, a launch failure prints an error naming both
paths and is returned as `Err`. -/
def open_editor (env : Env) (bin_path : String) (file_path : String) :
    Except String Int × List Event :=
  match env.editorStatus with
  | .ok status => (.ok status, [.spawn bin_path file_path])
  | .error e =>
    (.error e,
     [.spawn bin_path file_path,
      .eprinted ("Error: Unable to open file [" ++ file_path ++
        "] with editor binary at [" ++ bin_path ++ "]: " ++ e)])

/-- `Eureka::input_idea`: prompt for the idea summary, read both settings
(their absence here is an invariant violation surfacing as an `unwrap`
panic), open the editor on `<repo>/README.md`, and on editor success call
`git_commit_and_push` with the repo path and the summary. -/
def input_idea (env : Env) (st : St) : Res Unit :=
  let evs0 : List Event := [.printInputHeader ">> Idea summary"]
  match st.inputs with
  | [] => ⟨.blocked, st, evs0⟩
  | idea_summary :: rest =>
    let st1 := { st with inputs := rest }
    match config_read st1 .Editor with
    | none => ⟨.panicked "called Result::unwrap() on an Err value", st1, evs0⟩
    | some editor_path =>
      match config_read st1 .Repo with
      | none => ⟨.panicked "called Result::unwrap() on an Err value", st1, evs0⟩
      | some repo_path =>
        let readme_path := repo_path ++ "/README.md"
        match open_editor env editor_path readme_path with
        | (.ok _, evs1) =>
          match env.gitRes with
          | .ok _ =>
            ⟨.ok (), st1, evs0 ++ evs1 ++ [.gitCommitAndPush repo_path idea_summary]⟩
          | .error e =>
            ⟨.panicked ("called Result::unwrap() on an Err value: " ++ e), st1,
             evs0 ++ evs1 ++ [.gitCommitAndPush repo_path idea_summary]⟩
        | (.error e, evs1) =>
          ⟨.panicked ("Could not open editor at path " ++ editor_path ++ ": " ++ e),
           st1, evs0 ++ evs1⟩

/-- `Eureka::open_pager_less`: compute the notes-file path, resolve the
hard-coded pager name via the locator (aborting fatally when unresolved),
then spawn it on the notes file; a launch failure prints an error and is
returned as `Err`. -/
def open_pager_less (env : Env) (repo_config_file : String) :
    Outcome (Except String Unit) × List Event :=
  let readme_path := repo_config_file ++ "/README.md"
  match env.which "less" with
  | none => (.panicked "Cannot locate executable - less - on your system", [])
  | some less_path =>
    match env.pagerStatus with
    | .ok _ => (.ok (.ok ()), [.spawn less_path readme_path])
    | .error e =>
      (.ok (.error e),
       [.spawn less_path readme_path,
        .eprinted ("Error: Could not open idea file with less at [" ++
          readme_path ++ "]: " ++ e)])

/-- `Eureka::open_idea_file` (View Flow): read the repository path, aborting
fatally when absent, otherwise run the pager and unwrap its result. -/
def open_idea_file (env : Env) (st : St) : Outcome Unit × List Event :=
  match config_read st .Repo with
  | some repo_path =>
    match open_pager_less env repo_path with
    | (.ok (.ok _), evs) => (.ok (), evs)
    | (.ok (.error e), evs) =>
      (.panicked ("called Result::unwrap() on an Err value: " ++ e), evs)
    | (.panicked m, evs) => (.panicked m, evs)
    | (.blocked, evs) => (.blocked, evs)
  | none => (.panicked "No path to repository found: config file is missing", [])

/-- `Eureka::clear_repo`: delete the repo setting when present (a removal
failure is a fatal `expect`); absence is a silent no-op. -/
def clear_repo (env : Env) (st : St) : Outcome Unit × St × List Event :=
  match config_read st .Repo with
  | some _ =>
    match file_rm env st .Repo with
    | (.ok _, st1, evs) => (.ok (), st1, evs)
    | (.error e, st1, evs) =>
      (.panicked ("Could not remove repo config file: " ++ e), st1, evs)
  | none => (.ok (), st, [])

/-- `Eureka::clear_editor`: delete the editor setting when present (a removal
failure is a fatal `expect`); absence is a silent no-op. -/
def clear_editor (env : Env) (st : St) : Outcome Unit × St × List Event :=
  match config_read st .Editor with
  | some _ =>
    match file_rm env st .Editor with
    | (.ok _, st1, evs) => (.ok (), st1, evs)
    | (.error e, st1, evs) =>
      (.panicked ("Could not remove editor config file: " ++ e), st1, evs)
  | none => (.ok (), st, [])

/-- Sequencing of unit flows within `run`: a panic or block cuts the rest. -/
def Res.seq (r : Res Unit) (f : St → Res Unit) : Res Unit :=
  match r.out with
  | .ok _ =>
    let r2 := f r.st
    ⟨r2.out, r2.st, r.events ++ r2.events⟩
  | .panicked m => ⟨.panicked m, r.st, r.events⟩
  | .blocked => ⟨.blocked, r.st, r.events⟩

/-- The first-time branch of `run`: when both settings are missing, ensure
the config directory exists (creating it, fatally on failure) and print the
first-time-setup banner. -/
def run_first_time_step (env : Env) (st : St) : Res Unit :=
  if is_first_time_run st then
    if !st.configDir then
      match env.dirCreateRes with
      | .ok _ =>
        ⟨.ok (), { st with configDir := true }, [.configDirCreate, .printFtsBanner]⟩
      | .error e =>
        ⟨.panicked ("called Result::unwrap() on an Err value: " ++ e), st, []⟩
    else ⟨.ok (), st, [.printFtsBanner]⟩
  else ⟨.ok (), st, []⟩

/-- The `if repo missing then setup_repo_path().unwrap()` step of `run`. -/
def run_setup_repo (env : Env) (st : St) : Res Unit :=
  if (config_read st .Repo).isNone then
    let r := setup_repo_path env st
    match r.out with
    | .ok (.ok _) => ⟨.ok (), r.st, r.events⟩
    | .ok (.error e) =>
      ⟨.panicked ("called Result::unwrap() on an Err value: " ++ e), r.st, r.events⟩
    | .panicked m => ⟨.panicked m, r.st, r.events⟩
    | .blocked => ⟨.blocked, r.st, r.events⟩
  else ⟨.ok (), st, []⟩

/-- The `if editor missing then setup_editor_path().unwrap()` step of `run`. -/
def run_setup_editor (env : Env) (st : St) : Res Unit :=
  if (config_read st .Editor).isNone then
    let r := setup_editor_path env st
    match r.out with
    | .ok (.ok _) => ⟨.ok (), r.st, r.events⟩
    | .ok (.error e) =>
      ⟨.panicked ("called Result::unwrap() on an Err value: " ++ e), r.st, r.events⟩
    | .panicked m => ⟨.panicked m, r.st, r.events⟩
    | .blocked => ⟨.blocked, r.st, r.events⟩
  else ⟨.ok (), st, []⟩

/-- `Eureka::run`: classify the state; when a setting is missing run the
setup flow (first-time banner step, then repo, then editor, then the
completion message), otherwise run the capture flow `input_idea`. -/
def run (env : Env) (st : St) : Res Unit :=
  if is_config_missing st then
    (((run_first_time_step env st).seq
        (fun st1 => run_setup_repo env st1)).seq
        (fun st2 => run_setup_editor env st2)).seq
      (fun st3 => ⟨.ok (), st3, [.printed "First time setup complete. Happy ideation!"]⟩)
  else
    input_idea env st

/-- A concrete benign host used to instantiate theorems: vim, emacs and less
are installed, every collaborator operation succeeds, and the menu selection
is the default first entry. -/
def demoWhich : String → Option String := fun name =>
  if name = "vim" then some "/usr/bin/vim"
  else if name = "emacs" then some "/usr/bin/emacs"
  else if name = "less" then some "/usr/bin/less"
  else none

/-- A benign environment built on `demoWhich`. -/
def demoEnv : Env :=
  { which := demoWhich
    selectIndex := 0
    editorStatus := .ok 0
    pagerStatus := .ok 0
    writeRes := fun _ => .ok ()
    rmRes := fun _ => .ok ()
    dirCreateRes := .ok ()
    gitRes := .ok () }

/-- C1: for every combination of presence/absence of the RepositoryPath and
EditorPath settings, `run` classifies the state correctly: with both present
it enters the capture flow; with at least one absent it enters the setup
flow, acquiring exactly the missing settings with RepositoryPath before
EditorPath; and only with both absent does it additionally create the config
directory (when missing) and print the welcome banner, exactly once, before
acquiring settings.  Each of the four cases is settled by the full event
trace of `run` on `demoEnv`. -/
theorem run_state_classification :
    run demoEnv ⟨some "/r", some "/e", true, ["my idea"]⟩ =
      ⟨.ok (), ⟨some "/r", some "/e", true, []⟩,
       [.printInputHeader ">> Idea summary",
        .spawn "/e" "/r/README.md",
        .gitCommitAndPush "/r" "my idea"]⟩
    ∧ run demoEnv ⟨some "/r", none, true, []⟩ =
      ⟨.ok (), ⟨some "/r", some "/usr/bin/vim", true, []⟩,
       [.printEditorSelectionHeader,
        .selectMenu ["vim", other_option] 0,
        .configWrite .Editor "/usr/bin/vim",
        .printed "First time setup complete. Happy ideation!"]⟩
    ∧ run demoEnv ⟨none, some "/e", true, ["/home/user/ideas"]⟩ =
      ⟨.ok (), ⟨some "/home/user/ideas", some "/e", true, []⟩,
       [repo_prompt,
        .configWrite .Repo "/home/user/ideas",
        .printed "First time setup complete. Happy ideation!"]⟩
    ∧ run demoEnv ⟨none, none, false, ["/home/user/ideas"]⟩ =
      ⟨.ok (), ⟨some "/home/user/ideas", some "/usr/bin/vim", true, []⟩,
       [.configDirCreate,
        .printFtsBanner,
        repo_prompt,
        .configWrite .Repo "/home/user/ideas",
        .printEditorSelectionHeader,
        .selectMenu ["vim", other_option] 0,
        .configWrite .Editor "/usr/bin/vim",
        .printed "First time setup complete. Happy ideation!"]⟩ :=
  ⟨rfl, rfl, rfl, rfl⟩

/-- C2: with both settings present, the capture flow prompts once for an
idea summary (any line, the empty one included, is accepted without
re-prompting), invokes the configured editor with the single argument
`<RepositoryPath>/README.md`, and on editor-process success — any exit code
`code` — invokes commit-and-push with that repository path and the summary
as message. -/
theorem capture_flow_commits (env : Env) (st : St) (rp ep idea : String)
    (rest : List String) (code : Int)
    (hr : st.repo = some rp) (he : st.editor = some ep)
    (hin : st.inputs = idea :: rest)
    (hed : env.editorStatus = .ok code) (hgit : env.gitRes = .ok ()) :
    run env st =
      ⟨.ok (), { st with inputs := rest },
       [.printInputHeader ">> Idea summary",
        .spawn ep (rp ++ "/README.md"),
        .gitCommitAndPush rp idea]⟩ := by
  simp [run, is_config_missing, config_read, hr, he, input_idea, hin,
    open_editor, hed, hgit]

/-- Witness for C2 at a concrete input, with an editor exit code of 1. -/
theorem capture_flow_commits_witness :
    run { demoEnv with editorStatus := .ok 1 }
        ⟨some "/r", some "/e", true, ["Build a thing"]⟩ =
      ⟨.ok (), ⟨some "/r", some "/e", true, []⟩,
       [.printInputHeader ">> Idea summary",
        .spawn "/e" ("/r" ++ "/README.md"),
        .gitCommitAndPush "/r" "Build a thing"]⟩ :=
  capture_flow_commits { demoEnv with editorStatus := .ok 1 }
    ⟨some "/r", some "/e", true, ["Build a thing"]⟩
    "/r" "/e" "Build a thing" [] 1 rfl rfl rfl rfl rfl

/-- C5: repository-path acquisition prompts and re-prompts while the read
line is empty (for any number `k` of leading empty lines the loop emits
`k + 1` prompts and stops at the first non-empty line), surfaces no error;
on the concrete sequence `["", "", "/home/user/ideas"]` there are exactly
three prompts (two re-prompts) and the stored value is `/home/user/ideas`;
the operation fails only when the underlying config write fails, in which
case the write error is propagated unchanged and nothing is stored. -/
theorem setup_repo_path_spec (env : Env) (st : St)
    (hin : st.inputs = ["", "", "/home/user/ideas"]) :
    (∀ (k : Nat) (v : String) (rest : List String), v.isEmpty = false →
      setup_repo_path_loop (List.replicate k "" ++ v :: rest) =
        (.ok (v, rest), List.replicate (k + 1) repo_prompt))
    ∧ (env.writeRes .Repo = .ok () →
        setup_repo_path env st =
          ⟨.ok (.ok ()), { st with repo := some "/home/user/ideas", inputs := [] },
           [repo_prompt, repo_prompt, repo_prompt,
            .configWrite .Repo "/home/user/ideas"]⟩)
    ∧ (∀ e, env.writeRes .Repo = .error e →
        setup_repo_path env st =
          ⟨.ok (.error e), { st with inputs := [] },
           [repo_prompt, repo_prompt, repo_prompt]⟩) := by
  refine ⟨?_, ?_, ?_⟩
  · intro k
    induction k with
    | zero =>
      intro v rest hv
      simp [setup_repo_path_loop, hv]
    | succ n ih =>
      intro v rest hv
      have h0 : "".isEmpty = true := rfl
      simp [List.replicate_succ, setup_repo_path_loop, h0, ih v rest hv]
  · intro hw
    have h0 : "".isEmpty = true := rfl
    have h1 : "/home/user/ideas".isEmpty = false := rfl
    simp [setup_repo_path, hin, setup_repo_path_loop, h0, h1,
      config_write, hw, st_set]
  · intro e hw
    have h0 : "".isEmpty = true := rfl
    have h1 : "/home/user/ideas".isEmpty = false := rfl
    simp [setup_repo_path, hin, setup_repo_path_loop, h0, h1, config_write, hw]

/-- Witness for C5 on the concrete input sequence of the spec. -/
theorem setup_repo_path_spec_witness :
    setup_repo_path demoEnv ⟨none, none, true, ["", "", "/home/user/ideas"]⟩ =
      ⟨.ok (.ok ()), ⟨some "/home/user/ideas", none, true, []⟩,
       [repo_prompt, repo_prompt, repo_prompt,
        .configWrite .Repo "/home/user/ideas"]⟩ :=
  (setup_repo_path_spec demoEnv
      ⟨none, none, true, ["", "", "/home/user/ideas"]⟩ rfl).2.1 rfl

/-- C6: when launching the editor process fails in the capture flow, the run
aborts with a panic naming the editor path, after an error print naming both
the notes-file path and the editor binary path, and no commit-and-push event
ever occurs in that run. -/
theorem editor_launch_failure_aborts (env : Env) (st : St)
    (rp ep idea e : String) (rest : List String)
    (hr : st.repo = some rp) (he : st.editor = some ep)
    (hin : st.inputs = idea :: rest)
    (hed : env.editorStatus = .error e) :
    run env st =
      ⟨.panicked ("Could not open editor at path " ++ ep ++ ": " ++ e),
       { st with inputs := rest },
       [.printInputHeader ">> Idea summary",
        .spawn ep (rp ++ "/README.md"),
        .eprinted ("Error: Unable to open file [" ++ (rp ++ "/README.md") ++
          "] with editor binary at [" ++ ep ++ "]: " ++ e)]⟩
    ∧ ∀ r m, Event.gitCommitAndPush r m ∉ (run env st).events := by
  have h1 : run env st =
      ⟨.panicked ("Could not open editor at path " ++ ep ++ ": " ++ e),
       { st with inputs := rest },
       [.printInputHeader ">> Idea summary",
        .spawn ep (rp ++ "/README.md"),
        .eprinted ("Error: Unable to open file [" ++ (rp ++ "/README.md") ++
          "] with editor binary at [" ++ ep ++ "]: " ++ e)]⟩ := by
    simp [run, is_config_missing, config_read, hr, he, input_idea, hin,
      open_editor, hed]
  refine ⟨h1, ?_⟩
  intro r m
  simp [h1]

/-- Witness for C6 at a concrete failing editor launch. -/
theorem editor_launch_failure_aborts_witness :
    run { demoEnv with editorStatus := .error "spawn failed" }
        ⟨some "/r", some "/e", true, ["idea"]⟩ =
      ⟨.panicked ("Could not open editor at path " ++ "/e" ++ ": " ++ "spawn failed"),
       ⟨some "/r", some "/e", true, []⟩,
       [.printInputHeader ">> Idea summary",
        .spawn "/e" ("/r" ++ "/README.md"),
        .eprinted ("Error: Unable to open file [" ++ ("/r" ++ "/README.md") ++
          "] with editor binary at [" ++ "/e" ++ "]: " ++ "spawn failed")]⟩ :=
  (editor_launch_failure_aborts { demoEnv with editorStatus := .error "spawn failed" }
    ⟨some "/r", some "/e", true, ["idea"]⟩
    "/r" "/e" "idea" "spawn failed" [] rfl rfl rfl rfl).1

/-- C7: the view flow aborts fatally without spawning any process when the
repository path is absent; when it is present it computes the notes-file
path from the repository path, resolves the pager (aborting fatally, still
without any spawn, when unavailable), invokes it with the notes-file path as
its sole argument, and never performs commit-and-push. -/
theorem open_idea_file_spec (env : Env) (st : St) :
    (st.repo = none →
      open_idea_file env st =
        (.panicked "No path to repository found: config file is missing", []))
    ∧ (∀ rp, st.repo = some rp → env.which "less" = none →
        open_idea_file env st =
          (.panicked "Cannot locate executable - less - on your system", []))
    ∧ (∀ rp lp c, st.repo = some rp → env.which "less" = some lp →
        env.pagerStatus = .ok c →
        open_idea_file env st = (.ok (), [.spawn lp (rp ++ "/README.md")]))
    ∧ (∀ r m, Event.gitCommitAndPush r m ∉ (open_idea_file env st).2) := by
  refine ⟨?_, ?_, ?_, ?_⟩
  · intro h
    simp [open_idea_file, config_read, h]
  · intro rp h hw
    simp [open_idea_file, config_read, h, open_pager_less, hw]
  · intro rp lp c h hw hp
    simp [open_idea_file, config_read, h, open_pager_less, hw, hp]
  · intro r m
    cases h : st.repo with
    | none => simp [open_idea_file, config_read, h]
    | some rp =>
      cases hw : env.which "less" with
      | none => simp [open_idea_file, config_read, h, open_pager_less, hw]
      | some lp =>
        cases hp : env.pagerStatus with
        | ok c => simp [open_idea_file, config_read, h, open_pager_less, hw, hp]
        | error e => simp [open_idea_file, config_read, h, open_pager_less, hw, hp]

/-- Witness for C7: with the repository present and less installed, the view
flow spawns less on the notes file. -/
theorem open_idea_file_spec_witness :
    open_idea_file demoEnv ⟨some "/r", some "/e", true, []⟩ =
      (.ok (), [.spawn "/usr/bin/less" ("/r" ++ "/README.md")]) :=
  (open_idea_file_spec demoEnv ⟨some "/r", some "/e", true, []⟩).2.2.1
    "/r" "/usr/bin/less" 0 rfl rfl rfl

/-- C8: for each of `clear_repo` and `clear_editor`, clearing an absent
setting is a silent no-op; clearing a present one removes it so that a
subsequent presence check reports absent; a removal failure is a fatal
propagated panic; and each operation leaves the other setting untouched in
every case. -/
theorem clear_settings_spec (env : Env) (st : St) :
    (st.repo = none → clear_repo env st = (.ok (), st, []))
    ∧ (∀ v, st.repo = some v → env.rmRes .Repo = .ok () →
        clear_repo env st = (.ok (), { st with repo := none }, [.fileRm .Repo])
        ∧ config_read (clear_repo env st).2.1 .Repo = none)
    ∧ (∀ v e, st.repo = some v → env.rmRes .Repo = .error e →
        (clear_repo env st).1 =
          .panicked ("Could not remove repo config file: " ++ e))
    ∧ ((clear_repo env st).2.1.editor = st.editor)
    ∧ (st.editor = none → clear_editor env st = (.ok (), st, []))
    ∧ (∀ v, st.editor = some v → env.rmRes .Editor = .ok () →
        clear_editor env st = (.ok (), { st with editor := none }, [.fileRm .Editor])
        ∧ config_read (clear_editor env st).2.1 .Editor = none)
    ∧ (∀ v e, st.editor = some v → env.rmRes .Editor = .error e →
        (clear_editor env st).1 =
          .panicked ("Could not remove editor config file: " ++ e))
    ∧ ((clear_editor env st).2.1.repo = st.repo) := by
  refine ⟨?_, ?_, ?_, ?_, ?_, ?_, ?_, ?_⟩
  · intro h
    simp [clear_repo, config_read, h]
  · intro v h hrm
    simp [clear_repo, config_read, h, file_rm, hrm, st_del]
  · intro v e h hrm
    simp [clear_repo, config_read, h, file_rm, hrm]
  · cases h : st.repo with
    | none => simp [clear_repo, config_read, h]
    | some v =>
      cases hrm : env.rmRes ConfigFile.Repo with
      | ok u => simp [clear_repo, config_read, h, file_rm, hrm, st_del]
      | error e => simp [clear_repo, config_read, h, file_rm, hrm]
  · intro h
    simp [clear_editor, config_read, h]
  · intro v h hrm
    simp [clear_editor, config_read, h, file_rm, hrm, st_del]
  · intro v e h hrm
    simp [clear_editor, config_read, h, file_rm, hrm]
  · cases h : st.editor with
    | none => simp [clear_editor, config_read, h]
    | some v =>
      cases hrm : env.rmRes ConfigFile.Editor with
      | ok u => simp [clear_editor, config_read, h, file_rm, hrm, st_del]
      | error e => simp [clear_editor, config_read, h, file_rm, hrm]

/-- Witness for C8: clearing a present repo setting removes exactly it. -/
theorem clear_settings_spec_witness :
    clear_repo demoEnv ⟨some "/r", some "/e", true, []⟩ =
      (.ok (), ⟨none, some "/e", true, []⟩, [.fileRm .Repo]) :=
  ((clear_settings_spec demoEnv ⟨some "/r", some "/e", true, []⟩).2.1
    "/r" rfl rfl).1

/-- C10: the pager binary of the view flow is the hard-coded name `less`,
resolved through the executable locator on each invocation: with the
repository path present but `less` unresolved the run aborts fatally before
any spawn; with `less` resolving to `lp` the flow spawns exactly `lp` on the
notes file. -/
theorem pager_hardcoded_less (env : Env) (st : St) (rp : String)
    (hr : st.repo = some rp) :
    (env.which "less" = none →
      open_idea_file env st =
        (.panicked "Cannot locate executable - less - on your system", []))
    ∧ (∀ lp c, env.which "less" = some lp → env.pagerStatus = .ok c →
        open_idea_file env st = (.ok (), [.spawn lp (rp ++ "/README.md")])) := by
  refine ⟨?_, ?_⟩
  · intro hw
    simp [open_idea_file, config_read, hr, open_pager_less, hw]
  · intro lp c hw hp
    simp [open_idea_file, config_read, hr, open_pager_less, hw, hp]

/-- Witness for C10: repo present, less missing, fatal abort with no spawn. -/
theorem pager_hardcoded_less_witness :
    open_idea_file { demoEnv with which := fun _ => none }
        ⟨some "/r", some "/e", true, []⟩ =
      (.panicked "Cannot locate executable - less - on your system", []) :=
  (pager_hardcoded_less { demoEnv with which := fun _ => none }
    ⟨some "/r", some "/e", true, []⟩ "/r" rfl).1 rfl

/-- Every branch of `setup_editor_path` first prints the selection header
and shows the menu of found editor names followed by the sentinel, with
default index 0. -/
theorem setup_editor_path_events_shape (env : Env) (st : St) :
    ∃ tail, (setup_editor_path env st).events =
      .printEditorSelectionHeader ::
        .selectMenu ((probe_editors env).map Prod.fst ++ [other_option]) 0 :: tail := by
  simp only [setup_editor_path]
  split
  · split
    · exact ⟨_, rfl⟩
    · split
      · exact ⟨_, rfl⟩
      · exact ⟨_, rfl⟩
  · split
    · exact ⟨_, rfl⟩
    · split
      · exact ⟨_, rfl⟩
      · exact ⟨_, rfl⟩

/-- The names of the probed candidates form a sublist of the candidate
list: the probe keeps probe order and drops unresolved names. -/
theorem probe_fst_sublist (env : Env) :
    ((probe_editors env).map Prod.fst).Sublist default_editors := by
  unfold probe_editors
  induction default_editors with
  | nil => simp
  | cons a t ih =>
    cases h : env.which a with
    | none => simpa [List.filterMap_cons, h] using ih.cons a
    | some p => simpa [List.filterMap_cons, h] using ih.cons₂ a

/-- The probed names are pairwise distinct. -/
theorem probe_fst_nodup (env : Env) : ((probe_editors env).map Prod.fst).Nodup :=
  List.Nodup.sublist (probe_fst_sublist env) (by decide)

/-- In an association list with pairwise-distinct keys, looking up the key
stored at index `i` returns the value stored at index `i`. -/
theorem lookup_get_of_nodup (l : List (String × String)) :
    ∀ (i : Nat) (h : i < l.length), (l.map Prod.fst).Nodup →
      l.lookup l[i].1 = some l[i].2 := by
  induction l with
  | nil =>
    intro i h
    simp at h
  | cons kv t ih =>
    intro i h hnd
    obtain ⟨k, v⟩ := kv
    have hnd' : k ∉ t.map Prod.fst ∧ (t.map Prod.fst).Nodup := by
      simpa [List.nodup_cons] using hnd
    cases i with
    | zero => simp [List.lookup_cons]
    | succ n =>
      have hn : n < t.length := by simpa using h
      have hstep : ((k, v) :: t)[n + 1] = t[n] := rfl
      rw [hstep]
      have hmem : t[n].1 ∈ t.map Prod.fst :=
        List.mem_map_of_mem Prod.fst (List.getElem_mem hn)
      have hne : ¬ (t[n].1 = k) := fun he => hnd'.1 (he ▸ hmem)
      have hbeq : (t[n].1 == k) = false := by simpa using hne
      simp [List.lookup_cons, hbeq, ih n hn hnd'.2]

/-- C3: the editor-selection menu always lists exactly the default editors
the host resolves, in probe order, followed by the sentinel as last entry,
with the first item as default selection; with zero resolved defaults the
menu holds exactly the sentinel; and selecting a found editor (menu index
`i` pointing at the probed pair `(name, path)`) writes the path recorded at
probe time to the editor setting. -/
theorem editor_menu_spec (env : Env) (st : St) :
    (Event.selectMenu ((probe_editors env).map Prod.fst ++ [other_option]) 0 ∈
        (setup_editor_path env st).events)
    ∧ ((∀ ed ∈ default_editors, env.which ed = none) →
        Event.selectMenu [other_option] 0 ∈ (setup_editor_path env st).events)
    ∧ (∀ i name path, env.selectIndex = i →
        (probe_editors env).get? i = some (name, path) →
        env.writeRes .Editor = .ok () →
        (setup_editor_path env st).st.editor = some path
        ∧ Event.configWrite .Editor path ∈ (setup_editor_path env st).events) := by
  obtain ⟨tail, ht⟩ := setup_editor_path_events_shape env st
  refine ⟨?_, ?_, ?_⟩
  · simp [ht]
  · intro hall
    have hv := hall "vim" (by simp [default_editors])
    have hn := hall "nano" (by simp [default_editors])
    have hm := hall "micro" (by simp [default_editors])
    have hp : probe_editors env = [] := by
      simp [probe_editors, default_editors, hv, hn, hm]
    rw [hp] at ht
    simp at ht
    simp [ht]
  · intro i name path hsel hget hw
    obtain ⟨hi, hgeteq⟩ := List.get?_eq_some.mp hget
    have hne : ¬ (i = (probe_editors env).length) := Nat.ne_of_lt hi
    have hget' : (probe_editors env)[i]? = some (name, path) := by
      rw [← List.get?_eq_getElem?]
      exact hget
    have hg2 : ((probe_editors env).map Prod.fst ++ [other_option])[i]? =
        some name := by
      rw [List.getElem?_append_left (by simpa using hi), List.getElem?_map, hget']
      rfl
    have hgeteq' : (probe_editors env)[i] = (name, path) := hgeteq
    have hl : (probe_editors env).lookup name = some path := by
      have h2 := lookup_get_of_nodup (probe_editors env) i hi (probe_fst_nodup env)
      rw [hgeteq'] at h2
      exact h2
    constructor
    · simp [setup_editor_path, hsel, hne, hg2, hl, config_write, hw, st_set,
        Nat.add_sub_cancel]
    · simp [setup_editor_path, hsel, hne, hg2, hl, config_write, hw,
        Nat.add_sub_cancel]

/-- Witness for C3: with only vim resolving and the default selection, the
recorded vim path is written to the editor setting. -/
theorem editor_menu_spec_witness :
    (setup_editor_path demoEnv ⟨some "/r", none, true, []⟩).st.editor =
      some "/usr/bin/vim" :=
  ((editor_menu_spec demoEnv ⟨some "/r", none, true, []⟩).2.2
    0 "vim" "/usr/bin/vim" rfl rfl rfl).1

/-- C4: selecting the sentinel reads a free-text editor name; when the
locator cannot resolve it the flow aborts fatally with a message naming the
requested editor and writes nothing; when it resolves to `p` the flow writes
the resolved path `p` (not the typed name) to the editor setting, after
showing the menu and an empty input prompt. -/
theorem editor_other_sentinel (env : Env) (st : St) (name : String)
    (rest : List String)
    (hsel : env.selectIndex = (probe_editors env).length)
    (hin : st.inputs = name :: rest) :
    (env.which name = none →
      (setup_editor_path env st).out =
        .panicked ("Could not find executable for " ++ name ++ " - aborting")
      ∧ (setup_editor_path env st).st.editor = st.editor)
    ∧ (∀ p, env.which name = some p → env.writeRes .Editor = .ok () →
        (setup_editor_path env st).out = .ok (.ok ())
        ∧ (setup_editor_path env st).st.editor = some p
        ∧ (setup_editor_path env st).events =
            [.printEditorSelectionHeader,
             .selectMenu ((probe_editors env).map Prod.fst ++ [other_option]) 0,
             .printInputHeader "",
             .configWrite .Editor p]) := by
  constructor
  · intro hwn
    constructor
    · simp [setup_editor_path, hsel, hin, hwn, Nat.add_sub_cancel]
    · simp [setup_editor_path, hsel, hin, hwn, Nat.add_sub_cancel]
  · intro p hwp hw
    refine ⟨?_, ?_, ?_⟩
    · simp [setup_editor_path, hsel, hin, hwp, config_write, hw,
        Nat.add_sub_cancel]
    · simp [setup_editor_path, hsel, hin, hwp, config_write, hw, st_set,
        Nat.add_sub_cancel]
    · simp [setup_editor_path, hsel, hin, hwp, config_write, hw,
        Nat.add_sub_cancel]

/-- Witness for C4, the zero-found scenario of the spec: only `emacs`
resolves, the menu holds exactly the sentinel, and choosing it with input
`emacs` stores `/usr/bin/emacs`. -/
theorem editor_other_sentinel_witness :
    (setup_editor_path
        { demoEnv with
            which := fun n => if n = "emacs" then some "/usr/bin/emacs" else none }
        ⟨some "/r", none, true, ["emacs"]⟩).st.editor =
      some "/usr/bin/emacs" :=
  ((editor_other_sentinel
      { demoEnv with
          which := fun n => if n = "emacs" then some "/usr/bin/emacs" else none }
      ⟨some "/r", none, true, ["emacs"]⟩ "emacs" [] rfl rfl).2
    "/usr/bin/emacs" rfl rfl).2.1

/-- C9: the fixed ordered candidate list probed during editor setup is
exactly `["vim", "nano", "micro"]`, in that order: whenever the host
resolves all three, the probe records them in exactly that order and the
menu shown is `["vim", "nano", "micro", sentinel]`. -/
theorem default_editors_probe (env : Env) (st : St) (pv pn pm : String)
    (hv : env.which "vim" = some pv) (hn : env.which "nano" = some pn)
    (hm : env.which "micro" = some pm) :
    default_editors = ["vim", "nano", "micro"]
    ∧ probe_editors env = [("vim", pv), ("nano", pn), ("micro", pm)]
    ∧ Event.selectMenu ["vim", "nano", "micro", other_option] 0 ∈
        (setup_editor_path env st).events := by
  have hp : probe_editors env = [("vim", pv), ("nano", pn), ("micro", pm)] := by
    simp [probe_editors, default_editors, hv, hn, hm]
  refine ⟨rfl, hp, ?_⟩
  obtain ⟨tail, ht⟩ := setup_editor_path_events_shape env st
  rw [hp] at ht
  simp at ht
  simp [ht]

/-- Witness for C9 with all three defaults resolving to one binary. -/
theorem default_editors_probe_witness :
    probe_editors { demoEnv with which := fun _ => some "/bin/vi" } =
      [("vim", "/bin/vi"), ("nano", "/bin/vi"), ("micro", "/bin/vi")] :=
  (default_editors_probe { demoEnv with which := fun _ => some "/bin/vi" }
    ⟨none, none, true, []⟩ "/bin/vi" "/bin/vi" "/bin/vi" rfl rfl rfl).2.1

end Eureka
